import Mathlib

/-!
Shallow embedding of the connection lifecycle cache of SignalGenV:
`chartConnectionManager.ts` (the `ChartConnectionManager` class) and the
`initializeChart` algorithm of `useChartTransition.ts`.

Modelling conventions:
* Candle points are never inspected by the manager (lists are only copied),
  so a candle is an opaque token `Candle := Nat`.
* `Date.now()` values are natural-number timestamps passed explicitly
  (`now : Nat`); arithmetic that JS performs on them is done in `Int` so
  that subtraction matches JS semantics.
* The JS `Map<string, ChartConnection>` is an association list with the
  insertion-order iteration and first-match lookup of a JS `Map`
  (keys are unique in any state reachable from the empty map).
* The `unsubscribe` callback closures are identified by numeric tokens;
  invoking one appends its token to the `invoked` ghost log.  The ghost
  field `stored` records every token that ever became a record's
  `unsubscribe` capability (tokens discarded by `registerConnection` on an
  existing record are not stored).
* `subscriptionCount` is an `Int`: JS decrements without a floor.
-/

/-- Opaque stand-in for the `CandleStick` data points: the manager never
reads their fields, it only copies the arrays holding them. -/
def Candle : Type := Nat

instance : DecidableEq Candle := instDecidableEqNat

/-- One entry of the manager's `connections` map
(interface `ChartConnection` in `chartConnectionManager.ts`). -/
structure ChartConnection where
  symbol : String
  exchange : String
  timeframe : String
  lastData : List Candle
  lastUpdated : Nat
  isActive : Bool
  unsubscribe : Nat
  subscriptionCount : Int
  deriving DecidableEq

/-- The manager's mutable state, plus ghost logs for capability tokens:
`invoked` is the ordered log of `unsubscribe()` calls made by the manager,
`stored` the set of tokens ever held by some record. -/
structure ManagerState where
  connections : List (String × ChartConnection)
  invoked : List Nat
  stored : List Nat
  deriving DecidableEq

/-- The manager before any operation (fresh singleton instance). -/
def initState : ManagerState := ⟨[], [], []⟩

/-- `Map.get` of a JS `Map` as first-match association-list lookup. -/
def lookupConn : List (String × ChartConnection) → String → Option ChartConnection
  | [], _ => none
  | p :: rest, k => if p.1 = k then some p.2 else lookupConn rest k

/-- `Map.set` of a JS `Map`: replace the first binding of the key if
present, otherwise append at the end (insertion order). -/
def setConn : List (String × ChartConnection) → String → ChartConnection → List (String × ChartConnection)
  | [], k, c => [(k, c)]
  | p :: rest, k, c => if p.1 = k then (k, c) :: rest else p :: setConn rest k c

/-- `Map.delete` of a JS `Map`: drop the first binding of the key. -/
def eraseConn : List (String × ChartConnection) → String → List (String × ChartConnection)
  | [], _ => []
  | p :: rest, k => if p.1 = k then rest else p :: eraseConn rest k

/-- `generateKey` of `ChartConnectionManager`: string template
interpolation with `-` separators, no case folding. -/
def generateKey (exchange symbol timeframe : String) : String :=
  exchange ++ "-" ++ symbol ++ "-" ++ timeframe

/-- `registerConnection`: on an existing record, bump
`subscriptionCount`, refresh `lastUpdated`, return the existing record
(the caller's fresh `unsubscribeCallback` token is discarded); otherwise
create a record with a copy of `initialData`, count 1, active. -/
def registerConnection (now : Nat) (exchange symbol timeframe : String)
    (initialData : List Candle) (unsubscribeCallback : Nat)
    (s : ManagerState) : ManagerState × ChartConnection :=
  let key := generateKey exchange symbol timeframe
  match lookupConn s.connections key with
  | some existingConnection =>
      let updated := { existingConnection with
        subscriptionCount := existingConnection.subscriptionCount + 1,
        lastUpdated := now }
      ({ s with connections := setConn s.connections key updated }, updated)
  | none =>
      let connection : ChartConnection :=
        { symbol := symbol, exchange := exchange, timeframe := timeframe,
          lastData := initialData, lastUpdated := now, isActive := true,
          unsubscribe := unsubscribeCallback, subscriptionCount := 1 }
      ({ s with connections := setConn s.connections key connection,
                stored := s.stored ++ [unsubscribeCallback] }, connection)

/-- `getCachedData`: a copy of `lastData` if the record exists and is
less than 30 seconds old, else `null`. -/
def getCachedData (now : Nat) (exchange symbol timeframe : String)
    (s : ManagerState) : Option (List Candle) :=
  match lookupConn s.connections (generateKey exchange symbol timeframe) with
  | some connection =>
      if (now : Int) - (connection.lastUpdated : Int) < 30000 then
        some connection.lastData
      else none
  | none => none

/-- `updateCachedData`: overwrite `lastData` (copied) and refresh
`lastUpdated` when the record exists; silently drop otherwise. -/
def updateCachedData (now : Nat) (exchange symbol timeframe : String)
    (data : List Candle) (s : ManagerState) : ManagerState :=
  let key := generateKey exchange symbol timeframe
  match lookupConn s.connections key with
  | some connection =>
      let updated := { connection with lastData := data, lastUpdated := now }
      { s with connections := setConn s.connections key updated }
  | none => s

/-- `deactivateConnection`: decrement `subscriptionCount` (no floor);
once it is `<= 0`, clear `isActive`.  No-op on a missing record. -/
def deactivateConnection (exchange symbol timeframe : String)
    (s : ManagerState) : ManagerState :=
  let key := generateKey exchange symbol timeframe
  match lookupConn s.connections key with
  | some connection =>
      let newCount := connection.subscriptionCount - 1
      let updated := { connection with
        subscriptionCount := newCount,
        isActive := if newCount ≤ 0 then false else connection.isActive }
      { s with connections := setConn s.connections key updated }
  | none => s

/-- `activateConnection`: increment `subscriptionCount`, set `isActive`,
refresh `lastUpdated`.  No-op on a missing record. -/
def activateConnection (now : Nat) (exchange symbol timeframe : String)
    (s : ManagerState) : ManagerState :=
  let key := generateKey exchange symbol timeframe
  match lookupConn s.connections key with
  | some connection =>
      let updated := { connection with
        subscriptionCount := connection.subscriptionCount + 1,
        isActive := true, lastUpdated := now }
      { s with connections := setConn s.connections key updated }
  | none => s

/-- `removeConnection`: decrement `subscriptionCount`; when it drops to
`<= 0`, invoke `unsubscribe` and delete the record. -/
def removeConnection (exchange symbol timeframe : String)
    (s : ManagerState) : ManagerState :=
  let key := generateKey exchange symbol timeframe
  match lookupConn s.connections key with
  | some connection =>
      let newCount := connection.subscriptionCount - 1
      if newCount ≤ 0 then
        { s with connections := eraseConn s.connections key,
                 invoked := s.invoked ++ [connection.unsubscribe] }
      else
        let updated := { connection with subscriptionCount := newCount }
        { s with connections := setConn s.connections key updated }
  | none => s

/-- The removal condition tested by the sweep body of
`cleanupInactiveConnections` for one record. -/
def sweepCond (delay now : Nat) (c : ChartConnection) : Bool :=
  !c.isActive && c.subscriptionCount ≤ 0 && (now : Int) - (c.lastUpdated : Int) > (delay : Int)

/-- The `for (const [key, connection] of this.connections.entries())`
loop of the sweep: entries are visited in insertion order; a matching
record's `unsubscribe` is invoked and the record dropped. -/
def sweepRun (delay now : Nat) :
    List (String × ChartConnection) → List (String × ChartConnection) × List Nat
  | [] => ([], [])
  | p :: rest =>
      let r := sweepRun delay now rest
      if sweepCond delay now p.2 then (r.1, p.2.unsubscribe :: r.2)
      else (p :: r.1, r.2)

/-- The firing of a sweep scheduled by `cleanupInactiveConnections(delay)`:
the body of its `setTimeout`, evaluated at time `now`. -/
def cleanupInactiveConnectionsFire (delay now : Nat) (s : ManagerState) : ManagerState :=
  let r := sweepRun delay now s.connections
  { s with connections := r.1, invoked := s.invoked ++ r.2 }

/-- `isConnectionActive`: record exists, `isActive`, and
`subscriptionCount > 0`. -/
def isConnectionActive (exchange symbol timeframe : String)
    (s : ManagerState) : Bool :=
  match lookupConn s.connections (generateKey exchange symbol timeframe) with
  | some connection => connection.isActive && connection.subscriptionCount > 0
  | none => false

/-- `isConnectionActiveWithGracePeriod`: record exists with a positive
count and was touched within `graceMs`. -/
def isConnectionActiveWithGracePeriod (now : Nat) (exchange symbol timeframe : String)
    (graceMs : Nat) (s : ManagerState) : Bool :=
  match lookupConn s.connections (generateKey exchange symbol timeframe) with
  | some connection =>
      if connection.subscriptionCount > 0 then
        decide ((now : Int) - (connection.lastUpdated : Int) < (graceMs : Int))
      else false
  | none => false

/-- `getSubscriptionCount`: `connection?.subscriptionCount || 0` — the
record's count when a record exists (JS `||` only replaces the falsy
count `0`, which coincides with returning the count itself), else 0. -/
def getSubscriptionCount (exchange symbol timeframe : String)
    (s : ManagerState) : Int :=
  match lookupConn s.connections (generateKey exchange symbol timeframe) with
  | some connection => connection.subscriptionCount
  | none => 0

/-- `cleanupAll`: invoke every record's `unsubscribe` in iteration order
and clear the map. -/
def cleanupAll (s : ManagerState) : ManagerState :=
  { s with connections := [],
           invoked := s.invoked ++ s.connections.map (fun p => p.2.unsubscribe) }

/-- Outcome of one run of the `initializeChart` callback of
`useChartTransition.ts`: the registry state it leaves behind plus the
observable effects on the hook (whether the injected `fetchDataFn` was
awaited, whether `registerConnection` was reached, the `isReusingConnection`
flag, the data passed to `setData` if any, and the surfaced error). -/
structure InitOutcome where
  state : ManagerState
  fetchInvoked : Bool
  registered : Bool
  isReusingConnection : Bool
  dataSet : Option (List Candle)
  error : Option String
  deriving DecidableEq

/-- The `else` branch of `initializeChart` (fresh connection needed):
await `fetchDataFn`; on success `setData`, obtain the unsubscribe
callback from `onSubscribe` (modelled by the token `onSubscribeToken`)
and register; on rejection fall into the `catch` block, which only sets
the error message. -/
def initializeChartFresh (now : Nat) (exchange symbol timeframe : String)
    (fetchDataFn : Except String (List Candle)) (onSubscribeToken : Nat)
    (s : ManagerState) : InitOutcome :=
  match fetchDataFn with
  | Except.ok freshData =>
      let r := registerConnection now exchange symbol timeframe freshData onSubscribeToken s
      { state := r.1, fetchInvoked := true, registered := true,
        isReusingConnection := false, dataSet := some freshData, error := none }
  | Except.error e =>
      { state := s, fetchInvoked := true, registered := false,
        isReusingConnection := false, dataSet := none, error := some e }

/-- `initializeChart` of `useChartTransition.ts`, evaluated at time
`now`: if `getCachedData` is non-null (any array, even empty, is truthy)
and `isConnectionActive` holds, adopt the cached data and
`activateConnection`; otherwise take the fresh-fetch path. -/
def initializeChart (now : Nat) (exchange symbol timeframe : String)
    (fetchDataFn : Except String (List Candle)) (onSubscribeToken : Nat)
    (s : ManagerState) : InitOutcome :=
  match getCachedData now exchange symbol timeframe s with
  | some cachedData =>
      if isConnectionActive exchange symbol timeframe s then
        { state := activateConnection now exchange symbol timeframe s,
          fetchInvoked := false, registered := false,
          isReusingConnection := true, dataSet := some cachedData, error := none }
      else
        initializeChartFresh now exchange symbol timeframe fetchDataFn onSubscribeToken s
  | none =>
      initializeChartFresh now exchange symbol timeframe fetchDataFn onSubscribeToken s

/-- One registry operation of a lifetime trace.  `sweepFire delay now`
is the firing, at time `now`, of a sweep scheduled by
`cleanupInactiveConnections delay`; arbitrary interleavings model
overlapping sweeps. -/
inductive Event where
  | register (now : Nat) (exchange symbol timeframe : String)
      (initialData : List Candle) (unsubscribeCallback : Nat)
  | update (now : Nat) (exchange symbol timeframe : String) (data : List Candle)
  | deactivate (exchange symbol timeframe : String)
  | activate (now : Nat) (exchange symbol timeframe : String)
  | remove (exchange symbol timeframe : String)
  | sweepFire (delay now : Nat)
  | clearAll
  deriving DecidableEq

/-- Interpret one event on the manager state. -/
def step (s : ManagerState) : Event → ManagerState
  | Event.register now ex sym tf d u => (registerConnection now ex sym tf d u s).1
  | Event.update now ex sym tf d => updateCachedData now ex sym tf d s
  | Event.deactivate ex sym tf => deactivateConnection ex sym tf s
  | Event.activate now ex sym tf => activateConnection now ex sym tf s
  | Event.remove ex sym tf => removeConnection ex sym tf s
  | Event.sweepFire delay now => cleanupInactiveConnectionsFire delay now s
  | Event.clearAll => cleanupAll s

/-- Run a trace of registry operations. -/
def run (s : ManagerState) (t : List Event) : ManagerState := t.foldl step s

/-- The unsubscribe-callback tokens offered by the `register` events of a
trace, in order.  Distinct tokens model the fact that every
`onSubscribe()` call builds a fresh closure. -/
def registerIds : List Event → List Nat
  | [] => []
  | Event.register _ _ _ _ _ u :: rest => u :: registerIds rest
  | _ :: rest => registerIds rest

/-- The unsubscribe tokens currently held by records, in map order. -/
def connIds (s : ManagerState) : List Nat :=
  s.connections.map (fun p => p.2.unsubscribe)

/-- Capability-safety invariant of the manager: the invocation log has
no duplicates, live records hold pairwise-distinct stored tokens that
were never invoked, every invoked token was stored, and every stored
token is either still held by a record or has been invoked. -/
def ManagerInv (s : ManagerState) : Prop :=
  s.invoked.Nodup ∧
  (connIds s).Nodup ∧
  (∀ p ∈ s.connections, p.2.unsubscribe ∈ s.stored ∧ p.2.unsubscribe ∉ s.invoked) ∧
  (∀ u ∈ s.invoked, u ∈ s.stored) ∧
  (∀ u ∈ s.stored, (∃ p ∈ s.connections, p.2.unsubscribe = u) ∨ u ∈ s.invoked)

/-- Freshness of an event relative to a state: a `register` event offers
a token that no record has ever held. -/
def EventFresh (s : ManagerState) : Event → Prop
  | Event.register _ _ _ _ _ u => u ∉ s.stored
  | _ => True

/-- `n` successive `deactivateConnection` calls for one key. -/
def iterateDeactivate (exchange symbol timeframe : String) :
    Nat → ManagerState → ManagerState
  | 0, s => s
  | n + 1, s => iterateDeactivate exchange symbol timeframe n
      (deactivateConnection exchange symbol timeframe s)

/-- One consumer-side call that takes (or keeps) a reference on a key:
either `activateConnection` or a further `registerConnection`. -/
inductive ConsumeCall where
  | activateCall (now : Nat)
  | registerCall (now : Nat) (data : List Candle) (unsubscribeCallback : Nat)
  deriving DecidableEq

/-- Apply a sequence of consumer calls to one key. -/
def applyCalls (exchange symbol timeframe : String) :
    List ConsumeCall → ManagerState → ManagerState
  | [], s => s
  | ConsumeCall.activateCall now :: rest, s =>
      applyCalls exchange symbol timeframe rest
        (activateConnection now exchange symbol timeframe s)
  | ConsumeCall.registerCall now d u :: rest, s =>
      applyCalls exchange symbol timeframe rest
        (registerConnection now exchange symbol timeframe d u s).1

/-- A successful lookup splits the map at the first binding of the key. -/
theorem lookupConn_decomp {m : List (String × ChartConnection)} {k : String}
    {c : ChartConnection} (h : lookupConn m k = some c) :
    ∃ l1 l2, m = l1 ++ (k, c) :: l2 ∧ ∀ p ∈ l1, p.1 ≠ k := by
  induction m with
  | nil => simp [lookupConn] at h
  | cons p rest ih =>
      by_cases hk : p.1 = k
      · refine ⟨[], rest, ?_, by simp⟩
        have hc : p.2 = c := by simpa [lookupConn, hk] using h
        have : p = (k, c) := by
          cases p; simp_all
        simp [this]
      · have h' : lookupConn rest k = some c := by simpa [lookupConn, hk] using h
        obtain ⟨l1, l2, rfl, hl1⟩ := ih h'
        exact ⟨p :: l1, l2, rfl, by simpa [hk] using hl1⟩

/-- Lookup at the split point. -/
theorem lookupConn_append_cons (l1 l2 : List (String × ChartConnection))
    (k : String) (c : ChartConnection) (h1 : ∀ p ∈ l1, p.1 ≠ k) :
    lookupConn (l1 ++ (k, c) :: l2) k = some c := by
  induction l1 with
  | nil => simp [lookupConn]
  | cons p rest ih =>
      have hp : p.1 ≠ k := h1 p (by simp)
      simp only [List.cons_append, lookupConn, if_neg hp]
      exact ih fun q hq => h1 q (by simp [hq])

/-- `setConn` at the split point. -/
theorem setConn_append_cons (l1 l2 : List (String × ChartConnection))
    (k : String) (c c' : ChartConnection) (h1 : ∀ p ∈ l1, p.1 ≠ k) :
    setConn (l1 ++ (k, c) :: l2) k c' = l1 ++ (k, c') :: l2 := by
  induction l1 with
  | nil => simp [setConn]
  | cons p rest ih =>
      have hp : p.1 ≠ k := h1 p (by simp)
      simp only [List.cons_append, setConn, if_neg hp]
      exact congrArg (p :: ·) (ih fun q hq => h1 q (by simp [hq]))

/-- `eraseConn` at the split point. -/
theorem eraseConn_append_cons (l1 l2 : List (String × ChartConnection))
    (k : String) (c : ChartConnection) (h1 : ∀ p ∈ l1, p.1 ≠ k) :
    eraseConn (l1 ++ (k, c) :: l2) k = l1 ++ l2 := by
  induction l1 with
  | nil => simp [eraseConn]
  | cons p rest ih =>
      have hp : p.1 ≠ k := h1 p (by simp)
      simp only [List.cons_append, eraseConn, if_neg hp]
      exact congrArg (p :: ·) (ih fun q hq => h1 q (by simp [hq]))

/-- `setConn` on an absent key appends the new binding. -/
theorem setConn_of_lookup_none {m : List (String × ChartConnection)} {k : String}
    (h : lookupConn m k = none) (c : ChartConnection) :
    setConn m k c = m ++ [(k, c)] := by
  induction m with
  | nil => simp [setConn]
  | cons p rest ih =>
      by_cases hk : p.1 = k
      · simp [lookupConn, hk] at h
      · have h' : lookupConn rest k = none := by simpa [lookupConn, hk] using h
        simp [setConn, hk, ih h']

/-- Lookup after `setConn` at the written key. -/
theorem lookupConn_setConn_self (m : List (String × ChartConnection))
    (k : String) (c : ChartConnection) :
    lookupConn (setConn m k c) k = some c := by
  induction m with
  | nil => simp [setConn, lookupConn]
  | cons p rest ih =>
      by_cases hk : p.1 = k
      · simp [setConn, hk, lookupConn]
      · simp [setConn, hk, lookupConn, ih]

/-- Lookup after `setConn` at a different key. -/
theorem lookupConn_setConn_ne (m : List (String × ChartConnection))
    {k k' : String} (hne : k' ≠ k) (c : ChartConnection) :
    lookupConn (setConn m k c) k' = lookupConn m k' := by
  have hkk : ¬(k = k') := fun h => hne h.symm
  induction m with
  | nil => simp [setConn, lookupConn, hkk]
  | cons p rest ih =>
      by_cases hk : p.1 = k
      · subst hk
        have hp1 : ¬(p.1 = k') := fun h => hne h.symm
        simp [setConn, lookupConn, hp1]
      · simp [setConn, hk, lookupConn, ih]

/-- Lookup commutes with `filter` for a surviving record. -/
theorem lookupConn_filter {m : List (String × ChartConnection)} {k : String}
    {c : ChartConnection} (f : String × ChartConnection → Bool)
    (h : lookupConn m k = some c) (hkeep : f (k, c) = true) :
    lookupConn (m.filter f) k = some c := by
  induction m with
  | nil => simp [lookupConn] at h
  | cons p rest ih =>
      by_cases hk : p.1 = k
      · have hc : p.2 = c := by simpa [lookupConn, hk] using h
        have hp : p = (k, c) := by cases p; simp_all
        subst hp
        simp [List.filter, hkeep, lookupConn]
      · have h' : lookupConn rest k = some c := by simpa [lookupConn, hk] using h
        by_cases hf : f p
        · simp [List.filter, hf, lookupConn, hk, ih h']
        · simp only [List.filter, Bool.not_eq_true] at hf ⊢
          rw [hf]
          exact ih h'

/-- The sweep loop keeps exactly the records failing the removal
condition and logs, in iteration order, the `unsubscribe` of each
removed one. -/
theorem sweepRun_eq (delay now : Nat) (m : List (String × ChartConnection)) :
    sweepRun delay now m =
      (m.filter (fun p => !sweepCond delay now p.2),
       (m.filter (fun p => sweepCond delay now p.2)).map (fun p => p.2.unsubscribe)) := by
  induction m with
  | nil => simp [sweepRun]
  | cons p rest ih =>
      by_cases hc : sweepCond delay now p.2
      · simp [sweepRun, ih, hc]
      · simp [sweepRun, ih, hc]

/-- Replacing the record at a bound key by one holding the same
`unsubscribe` token preserves the capability-safety invariant. -/
theorem ManagerInv_set_same {s : ManagerState} {k : String} {c : ChartConnection}
    (c' : ChartConnection) (hI : ManagerInv s)
    (h : lookupConn s.connections k = some c)
    (hu : c'.unsubscribe = c.unsubscribe) :
    ManagerInv { s with connections := setConn s.connections k c' } := by
  obtain ⟨l1, l2, hm, hl1⟩ := lookupConn_decomp h
  obtain ⟨hI1, hI2, hI3, hI4, hI5⟩ := hI
  have hset : setConn s.connections k c' = l1 ++ (k, c') :: l2 := by
    rw [hm]; exact setConn_append_cons l1 l2 k c c' hl1
  refine ⟨hI1, ?_, ?_, hI4, ?_⟩
  · show (List.map (fun p => p.2.unsubscribe) (setConn s.connections k c')).Nodup
    rw [hset]
    have heq : List.map (fun p => p.2.unsubscribe) (l1 ++ (k, c') :: l2)
        = List.map (fun p => p.2.unsubscribe) (l1 ++ (k, c) :: l2) := by
      simp [hu]
    rw [heq, ← hm]
    exact hI2
  · intro p hp
    simp only [hset] at hp
    rcases List.mem_append.1 hp with h1 | h2
    · exact hI3 p (by rw [hm]; exact List.mem_append_left _ h1)
    · rcases List.mem_cons.1 h2 with rfl | h3
      · have hc := hI3 (k, c) (by rw [hm]; simp)
        simpa [hu] using hc
      · exact hI3 p (by rw [hm]; simp [h3])
  · intro v hv
    rcases hI5 v hv with ⟨p, hp, hpu⟩ | hvi
    · rw [hm] at hp
      rcases List.mem_append.1 hp with h1 | h2
      · exact Or.inl ⟨p, by simp only [hset]; exact List.mem_append_left _ h1, hpu⟩
      · rcases List.mem_cons.1 h2 with rfl | h3
        · exact Or.inl ⟨(k, c'), by simp [hset], by simpa [hu] using hpu⟩
        · exact Or.inl ⟨p, by simp [hset, h3], hpu⟩
    · exact Or.inr hvi

/-- `registerConnection` preserves the invariant when the offered token
is fresh. -/
theorem ManagerInv_registerConnection (now : Nat) (ex sym tf : String)
    (d : List Candle) (u : Nat) {s : ManagerState}
    (hI : ManagerInv s) (hfresh : u ∉ s.stored) :
    ManagerInv (registerConnection now ex sym tf d u s).1 := by
  unfold registerConnection
  cases hl : lookupConn s.connections (generateKey ex sym tf) with
  | some c =>
      simpa only [hl] using ManagerInv_set_same
        ({ c with subscriptionCount := c.subscriptionCount + 1, lastUpdated := now })
        hI hl rfl
  | none =>
      simp only [hl]
      obtain ⟨hI1, hI2, hI3, hI4, hI5⟩ := hI
      have hids : ∀ p ∈ s.connections, p.2.unsubscribe ≠ u := fun p hp he =>
        hfresh (he ▸ (hI3 p hp).1)
      have hset := setConn_of_lookup_none hl
        (⟨sym, ex, tf, d, now, true, u, 1⟩ : ChartConnection)
      refine ⟨hI1, ?_, ?_, ?_, ?_⟩
      · show (List.map (fun p => p.2.unsubscribe)
          (setConn s.connections (generateKey ex sym tf) ⟨sym, ex, tf, d, now, true, u, 1⟩)).Nodup
        rw [hset]
        simp only [List.map_append, List.map_cons, List.map_nil]
        refine List.Nodup.append hI2 (List.nodup_singleton u) ?_
        intro a ha hb
        simp only [List.mem_singleton] at hb
        obtain ⟨p, hp, hpu⟩ := List.mem_map.1 ha
        exact hids p hp (hb ▸ hpu)
      · intro p hp
        simp only [hset] at hp
        rcases List.mem_append.1 hp with h1 | h2
        · obtain ⟨hst, hni⟩ := hI3 p h1
          exact ⟨List.mem_append_left _ hst, hni⟩
        · simp only [List.mem_singleton] at h2
          subst h2
          exact ⟨List.mem_append_right _ (by simp), fun hin => hfresh (hI4 u hin)⟩
      · intro v hv
        exact List.mem_append_left _ (hI4 v hv)
      · intro v hv
        rcases List.mem_append.1 hv with h1 | h2
        · rcases hI5 v h1 with ⟨p, hp, hpu⟩ | hvi
          · exact Or.inl ⟨p, by simp [hset, hp], hpu⟩
          · exact Or.inr hvi
        · simp only [List.mem_singleton] at h2
          exact Or.inl ⟨(generateKey ex sym tf, ⟨sym, ex, tf, d, now, true, u, 1⟩),
            by simp [hset], h2.symm⟩

/-- `updateCachedData` preserves the invariant. -/
theorem ManagerInv_updateCachedData (now : Nat) (ex sym tf : String)
    (d : List Candle) {s : ManagerState} (hI : ManagerInv s) :
    ManagerInv (updateCachedData now ex sym tf d s) := by
  unfold updateCachedData
  cases hl : lookupConn s.connections (generateKey ex sym tf) with
  | some c =>
      simpa only [hl] using ManagerInv_set_same
        ({ c with lastData := d, lastUpdated := now }) hI hl rfl
  | none => simpa only [hl] using hI

/-- `deactivateConnection` preserves the invariant. -/
theorem ManagerInv_deactivateConnection (ex sym tf : String)
    {s : ManagerState} (hI : ManagerInv s) :
    ManagerInv (deactivateConnection ex sym tf s) := by
  unfold deactivateConnection
  cases hl : lookupConn s.connections (generateKey ex sym tf) with
  | some c =>
      simpa only [hl] using ManagerInv_set_same
        ({ c with subscriptionCount := c.subscriptionCount - 1,
                  isActive := if c.subscriptionCount - 1 ≤ 0 then false else c.isActive })
        hI hl rfl
  | none => simpa only [hl] using hI

/-- `activateConnection` preserves the invariant. -/
theorem ManagerInv_activateConnection (now : Nat) (ex sym tf : String)
    {s : ManagerState} (hI : ManagerInv s) :
    ManagerInv (activateConnection now ex sym tf s) := by
  unfold activateConnection
  cases hl : lookupConn s.connections (generateKey ex sym tf) with
  | some c =>
      simpa only [hl] using ManagerInv_set_same
        ({ c with subscriptionCount := c.subscriptionCount + 1,
                  isActive := true, lastUpdated := now }) hI hl rfl
  | none => simpa only [hl] using hI

/-- Removing a bound record and logging its token preserves the
invariant. -/
theorem ManagerInv_erase_invoke {s : ManagerState} {k : String} {c : ChartConnection}
    (hI : ManagerInv s) (h : lookupConn s.connections k = some c) :
    ManagerInv ⟨eraseConn s.connections k, s.invoked ++ [c.unsubscribe], s.stored⟩ := by
  obtain ⟨l1, l2, hm, hl1⟩ := lookupConn_decomp h
  obtain ⟨hI1, hI2, hI3, hI4, hI5⟩ := hI
  have hkc : (k, c) ∈ s.connections := by rw [hm]; simp
  obtain ⟨hcst, hcni⟩ := hI3 (k, c) hkc
  have hera : eraseConn s.connections k = l1 ++ l2 := by
    rw [hm]; exact eraseConn_append_cons l1 l2 k c hl1
  have hI2' : (List.map (fun p => p.2.unsubscribe) (l1 ++ (k, c) :: l2)).Nodup := by
    rw [← hm]; exact hI2
  simp only [List.map_append, List.map_cons] at hI2'
  obtain ⟨hnd1, hnd2, hdisj⟩ := List.nodup_append.1 hI2'
  have hcnl1 : c.unsubscribe ∉ List.map (fun p => p.2.unsubscribe) l1 := fun hmem =>
    hdisj hmem (List.mem_cons_self _ _)
  have hcnl2 : c.unsubscribe ∉ List.map (fun p => p.2.unsubscribe) l2 :=
    (List.nodup_cons.1 hnd2).1
  refine ⟨?_, ?_, ?_, ?_, ?_⟩
  · refine List.Nodup.append hI1 (List.nodup_singleton _) ?_
    intro a ha hb
    simp only [List.mem_singleton] at hb
    subst hb
    exact hcni ha
  · show (List.map (fun p => p.2.unsubscribe) (eraseConn s.connections k)).Nodup
    rw [hera, List.map_append]
    refine List.Nodup.append hnd1 (List.nodup_cons.1 hnd2).2 ?_
    intro a ha hb
    exact hdisj ha (List.mem_cons_of_mem _ hb)
  · intro p hp
    show p.2.unsubscribe ∈ s.stored ∧ p.2.unsubscribe ∉ s.invoked ++ [c.unsubscribe]
    rw [hera] at hp
    have hpm : p ∈ s.connections := by
      rw [hm]
      rcases List.mem_append.1 hp with h1 | h2
      · exact List.mem_append_left _ h1
      · exact List.mem_append_right _ (List.mem_cons_of_mem _ h2)
    obtain ⟨hst, hni⟩ := hI3 p hpm
    refine ⟨hst, ?_⟩
    intro hmem
    rcases List.mem_append.1 hmem with h1 | h2
    · exact hni h1
    · simp only [List.mem_singleton] at h2
      rcases List.mem_append.1 hp with hq1 | hq2
      · exact hcnl1 (h2 ▸ List.mem_map_of_mem (fun p => p.2.unsubscribe) hq1)
      · exact hcnl2 (h2 ▸ List.mem_map_of_mem (fun p => p.2.unsubscribe) hq2)
  · intro v hv
    rcases List.mem_append.1 hv with h1 | h2
    · exact hI4 v h1
    · simp only [List.mem_singleton] at h2
      exact h2 ▸ hcst
  · intro v hv
    rcases hI5 v hv with ⟨p, hp, hpu⟩ | hvi
    · rw [hm] at hp
      rcases List.mem_append.1 hp with h1 | h2
      · exact Or.inl ⟨p, by rw [hera]; exact List.mem_append_left _ h1, hpu⟩
      · rcases List.mem_cons.1 h2 with rfl | h3
        · exact Or.inr (List.mem_append_right _ (List.mem_singleton.2 hpu.symm))
        · exact Or.inl ⟨p, by rw [hera]; exact List.mem_append_right _ h3, hpu⟩
    · exact Or.inr (List.mem_append_left _ hvi)

/-- `removeConnection` preserves the invariant. -/
theorem ManagerInv_removeConnection (ex sym tf : String)
    {s : ManagerState} (hI : ManagerInv s) :
    ManagerInv (removeConnection ex sym tf s) := by
  unfold removeConnection
  cases hl : lookupConn s.connections (generateKey ex sym tf) with
  | some c =>
      simp only [hl]
      by_cases hz : c.subscriptionCount - 1 ≤ 0
      · simpa only [if_pos hz] using ManagerInv_erase_invoke hI hl
      · simpa only [if_neg hz] using ManagerInv_set_same
          ({ c with subscriptionCount := c.subscriptionCount - 1 }) hI hl rfl
  | none => simpa only [hl] using hI

/-- A firing sweep preserves the invariant. -/
theorem ManagerInv_sweep (delay now : Nat) {s : ManagerState} (hI : ManagerInv s) :
    ManagerInv (cleanupInactiveConnectionsFire delay now s) := by
  obtain ⟨hI1, hI2, hI3, hI4, hI5⟩ := hI
  have hI2' : (List.map (fun p => p.2.unsubscribe) s.connections).Nodup := hI2
  have hinj := List.inj_on_of_nodup_map hI2'
  simp only [cleanupInactiveConnectionsFire, sweepRun_eq]
  have hndK : (List.map (fun p => p.2.unsubscribe)
      (s.connections.filter (fun p => !sweepCond delay now p.2))).Nodup :=
    List.Nodup.sublist (List.Sublist.map _ (List.filter_sublist _)) hI2'
  have hndC : (List.map (fun p => p.2.unsubscribe)
      (s.connections.filter (fun p => sweepCond delay now p.2))).Nodup :=
    List.Nodup.sublist (List.Sublist.map _ (List.filter_sublist _)) hI2'
  have hdisjCK : ∀ a, a ∈ List.map (fun p => p.2.unsubscribe)
      (s.connections.filter (fun p => sweepCond delay now p.2)) →
      a ∉ List.map (fun p => p.2.unsubscribe)
      (s.connections.filter (fun p => !sweepCond delay now p.2)) := by
    intro a haC haK
    obtain ⟨p, hpf, hpa⟩ := List.mem_map.1 haC
    obtain ⟨q, hqf, hqa⟩ := List.mem_map.1 haK
    obtain ⟨hpm, hpc⟩ := List.mem_filter.1 hpf
    obtain ⟨hqm, hqc⟩ := List.mem_filter.1 hqf
    have hpq : p = q := hinj hpm hqm (by rw [hpa, hqa])
    subst hpq
    simp [hpc] at hqc
  refine ⟨?_, hndK, ?_, ?_, ?_⟩
  · refine List.Nodup.append hI1 hndC ?_
    intro a ha hb
    obtain ⟨p, hpf, hpa⟩ := List.mem_map.1 hb
    exact (hI3 p (List.mem_filter.1 hpf).1).2 (by rw [hpa]; exact ha)
  · intro p hp
    obtain ⟨hpm, hpk⟩ := List.mem_filter.1 hp
    obtain ⟨hst, hni⟩ := hI3 p hpm
    refine ⟨hst, ?_⟩
    intro hmem
    rcases List.mem_append.1 hmem with h1 | h2
    · exact hni h1
    · exact hdisjCK _ h2 (List.mem_map_of_mem _ hp)
  · intro v hv
    rcases List.mem_append.1 hv with h1 | h2
    · exact hI4 v h1
    · obtain ⟨p, hpf, hpa⟩ := List.mem_map.1 h2
      exact hpa ▸ (hI3 p (List.mem_filter.1 hpf).1).1
  · intro v hv
    rcases hI5 v hv with ⟨p, hp, hpu⟩ | hvi
    · by_cases hc : sweepCond delay now p.2
      · exact Or.inr (List.mem_append_right _
          (List.mem_map.2 ⟨p, List.mem_filter.2 ⟨hp, by simp [hc]⟩, hpu⟩))
      · exact Or.inl ⟨p, List.mem_filter.2 ⟨hp, by simp [hc]⟩, hpu⟩
    · exact Or.inr (List.mem_append_left _ hvi)

/-- `cleanupAll` preserves the invariant. -/
theorem ManagerInv_cleanupAll {s : ManagerState} (hI : ManagerInv s) :
    ManagerInv (cleanupAll s) := by
  obtain ⟨hI1, hI2, hI3, hI4, hI5⟩ := hI
  unfold cleanupAll
  refine ⟨?_, by simp [connIds], ?_, ?_, ?_⟩
  · refine List.Nodup.append hI1 hI2 ?_
    intro a ha hb
    obtain ⟨p, hpm, hpa⟩ := List.mem_map.1 hb
    exact (hI3 p hpm).2 (by rw [hpa]; exact ha)
  · intro p hp
    exact absurd hp (List.not_mem_nil p)
  · intro v hv
    rcases List.mem_append.1 hv with h1 | h2
    · exact hI4 v h1
    · obtain ⟨p, hpm, hpa⟩ := List.mem_map.1 h2
      exact hpa ▸ (hI3 p hpm).1
  · intro v hv
    rcases hI5 v hv with ⟨p, hp, hpu⟩ | hvi
    · exact Or.inr (List.mem_append_right _ (List.mem_map.2 ⟨p, hp, hpu⟩))
    · exact Or.inr (List.mem_append_left _ hvi)

/-- One fresh event preserves the invariant. -/
theorem ManagerInv_step {s : ManagerState} {e : Event}
    (hI : ManagerInv s) (hf : EventFresh s e) : ManagerInv (step s e) := by
  cases e with
  | register now ex sym tf d u => exact ManagerInv_registerConnection now ex sym tf d u hI hf
  | update now ex sym tf d => exact ManagerInv_updateCachedData now ex sym tf d hI
  | deactivate ex sym tf => exact ManagerInv_deactivateConnection ex sym tf hI
  | activate now ex sym tf => exact ManagerInv_activateConnection now ex sym tf hI
  | remove ex sym tf => exact ManagerInv_removeConnection ex sym tf hI
  | sweepFire delay now => exact ManagerInv_sweep delay now hI
  | clearAll => exact ManagerInv_cleanupAll hI

/-- A step only adds its own `register` token to the stored log. -/
theorem stored_step (s : ManagerState) (e : Event) :
    ∀ u ∈ (step s e).stored, u ∈ s.stored ∨ u ∈ registerIds [e] := by
  cases e with
  | register now ex sym tf d un =>
      intro u hu
      simp only [step, registerConnection] at hu
      rcases hl : lookupConn s.connections (generateKey ex sym tf) with _ | c
      · rw [hl] at hu
        simp only at hu
        rcases List.mem_append.1 hu with h1 | h2
        · exact Or.inl h1
        · simp only [List.mem_singleton] at h2
          exact Or.inr (by simp [registerIds, h2])
      · rw [hl] at hu
        exact Or.inl hu
  | update now ex sym tf d =>
      intro u hu
      refine Or.inl ?_
      simp only [step, updateCachedData] at hu
      rcases hl : lookupConn s.connections (generateKey ex sym tf) with _ | c <;>
        rw [hl] at hu <;> exact hu
  | deactivate ex sym tf =>
      intro u hu
      refine Or.inl ?_
      simp only [step, deactivateConnection] at hu
      rcases hl : lookupConn s.connections (generateKey ex sym tf) with _ | c <;>
        rw [hl] at hu <;> exact hu
  | activate now ex sym tf =>
      intro u hu
      refine Or.inl ?_
      simp only [step, activateConnection] at hu
      rcases hl : lookupConn s.connections (generateKey ex sym tf) with _ | c <;>
        rw [hl] at hu <;> exact hu
  | remove ex sym tf =>
      intro u hu
      refine Or.inl ?_
      simp only [step, removeConnection] at hu
      rcases hl : lookupConn s.connections (generateKey ex sym tf) with _ | c
      · rw [hl] at hu; exact hu
      · rw [hl] at hu
        by_cases hz : c.subscriptionCount - 1 ≤ 0
        · simpa [hz] using hu
        · simpa [hz] using hu
  | sweepFire delay now =>
      intro u hu
      exact Or.inl hu
  | clearAll =>
      intro u hu
      exact Or.inl hu

/-- `registerIds` distributes over the head of a trace. -/
theorem registerIds_cons (e : Event) (t : List Event) :
    registerIds (e :: t) = registerIds [e] ++ registerIds t := by
  cases e <;> rfl

/-- The fresh manager satisfies the capability-safety invariant. -/
theorem ManagerInv_initState : ManagerInv initState := by
  refine ⟨?_, ?_, ?_, ?_, ?_⟩ <;> simp [initState, connIds]

/-- Running a trace whose `register` tokens are fresh and pairwise
distinct preserves the invariant, and the stored tokens afterwards all
come from the start state or the trace. -/
theorem run_fresh_inv : ∀ (t : List Event) (s : ManagerState), ManagerInv s →
    (∀ u ∈ registerIds t, u ∉ s.stored) → (registerIds t).Nodup →
    ManagerInv (run s t) ∧
      ∀ u ∈ (run s t).stored, u ∈ s.stored ∨ u ∈ registerIds t := by
  intro t
  induction t with
  | nil => exact fun s hI _ _ => ⟨hI, fun u hu => Or.inl hu⟩
  | cons e rest ih =>
      intro s hI hfr hnd
      rw [registerIds_cons] at hfr hnd
      have hf : EventFresh s e := by
        cases e
        case register now ex sym tf d u => exact hfr u (by simp [registerIds])
        all_goals trivial
      have hI' := ManagerInv_step hI hf
      have hst := stored_step s e
      have hfr' : ∀ u ∈ registerIds rest, u ∉ (step s e).stored := by
        intro u hu hmem
        rcases hst u hmem with h1 | h2
        · exact hfr u (List.mem_append_right _ hu) h1
        · exact (List.nodup_append.1 hnd).2.2 h2 hu
      have hnd' : (registerIds rest).Nodup := (List.nodup_append.1 hnd).2.1
      obtain ⟨hIr, hsub⟩ := ih (step s e) hI' hfr' hnd'
      refine ⟨by simpa [run] using hIr, ?_⟩
      intro u hu
      have hu' : u ∈ (run (step s e) rest).stored := by simpa [run] using hu
      rcases hsub u hu' with h1 | h2
      · rcases hst u h1 with ha | hb
        · exact Or.inl ha
        · exact Or.inr (by rw [registerIds_cons]; exact List.mem_append_left _ hb)
      · exact Or.inr (by rw [registerIds_cons]; exact List.mem_append_right _ h2)

/-- C2: for every record and every sequence of registry operations
(`removeConnection`, overlapping `cleanupInactiveConnections` sweeps,
`cleanupAll`), the record's release capability is invoked exactly once
over the record's lifetime: the invocation log never repeats a token
(never twice), a token still held by a live record has not been invoked
yet, and every token whose record was destroyed is in the log (never
zero times after destruction). -/
theorem release_invoked_exactly_once (t : List Event)
    (hids : (registerIds t).Nodup) :
    (run initState t).invoked.Nodup ∧
    (∀ p ∈ (run initState t).connections,
        p.2.unsubscribe ∉ (run initState t).invoked) ∧
    (∀ u ∈ (run initState t).stored,
        (∃ p ∈ (run initState t).connections, p.2.unsubscribe = u) ∨
          u ∈ (run initState t).invoked) := by
  obtain ⟨hI, _⟩ := run_fresh_inv t initState ManagerInv_initState
    (by intro u hu hmem; simp [initState] at hmem) hids
  obtain ⟨h1, _, h3, _, h5⟩ := hI
  exact ⟨h1, fun p hp => (h3 p hp).2, h5⟩

/-- Witness for C2 on a concrete trace: register, deactivate, then a
sweep that fires after the grace delay and releases the record. -/
theorem release_invoked_exactly_once_witness :
    (run initState [Event.register 0 "binance" "BTCUSDT" "1m" [] 7,
        Event.deactivate "binance" "BTCUSDT" "1m",
        Event.sweepFire 2000 5000]).invoked.Nodup ∧
    (∀ p ∈ (run initState [Event.register 0 "binance" "BTCUSDT" "1m" [] 7,
        Event.deactivate "binance" "BTCUSDT" "1m",
        Event.sweepFire 2000 5000]).connections,
        p.2.unsubscribe ∉ (run initState [Event.register 0 "binance" "BTCUSDT" "1m" [] 7,
        Event.deactivate "binance" "BTCUSDT" "1m",
        Event.sweepFire 2000 5000]).invoked) ∧
    (∀ u ∈ (run initState [Event.register 0 "binance" "BTCUSDT" "1m" [] 7,
        Event.deactivate "binance" "BTCUSDT" "1m",
        Event.sweepFire 2000 5000]).stored,
        (∃ p ∈ (run initState [Event.register 0 "binance" "BTCUSDT" "1m" [] 7,
        Event.deactivate "binance" "BTCUSDT" "1m",
        Event.sweepFire 2000 5000]).connections, p.2.unsubscribe = u) ∨
          u ∈ (run initState [Event.register 0 "binance" "BTCUSDT" "1m" [] 7,
        Event.deactivate "binance" "BTCUSDT" "1m",
        Event.sweepFire 2000 5000]).invoked) :=
  release_invoked_exactly_once
    [Event.register 0 "binance" "BTCUSDT" "1m" [] 7,
     Event.deactivate "binance" "BTCUSDT" "1m",
     Event.sweepFire 2000 5000] (by decide)

/-- C8: `getCachedData` returns the cached candle list exactly when a
record exists for the key and the elapsed time since `lastUpdated` is
within the 30-second freshness window (strictly less than 30000 ms in
the source); beyond the window it returns `none` even though the record
itself is still in the registry. -/
theorem getCachedData_freshness_window (now : Nat) (ex sym tf : String)
    (s : ManagerState) (d : List Candle) :
    getCachedData now ex sym tf s = some d ↔
      ∃ c, lookupConn s.connections (generateKey ex sym tf) = some c ∧
        (now : Int) - (c.lastUpdated : Int) < 30000 ∧ d = c.lastData := by
  unfold getCachedData
  cases hl : lookupConn s.connections (generateKey ex sym tf) with
  | some c =>
      by_cases hfr : (now : Int) - (c.lastUpdated : Int) < 30000
      · simp only [if_pos hfr, Option.some_inj]
        constructor
        · intro hd
          exact ⟨c, rfl, hfr, hd.symm⟩
        · rintro ⟨c', hc', _, hd⟩
          cases hc'
          exact hd.symm
      · simp only [if_neg hfr]
        constructor
        · intro hd
          exact absurd hd (by simp)
        · rintro ⟨c', hc', hfr', _⟩
          cases hc'
          exact absurd hfr' hfr
  | none =>
      simp

/-- C7: `registerConnection` on a key that already has a record returns
that record with `subscriptionCount` incremented and `lastUpdated`
refreshed, stores it back under the same key, keeps the original
`unsubscribe` capability (the caller's new one is discarded and never
stored), leaves every other key's record alone, and invokes nothing. -/
theorem registerConnection_existing (now : Nat) (ex sym tf : String)
    (d2 : List Candle) (u2 : Nat) (c : ChartConnection) (s : ManagerState)
    (h : lookupConn s.connections (generateKey ex sym tf) = some c) :
    (registerConnection now ex sym tf d2 u2 s).2
        = { c with subscriptionCount := c.subscriptionCount + 1, lastUpdated := now } ∧
    lookupConn (registerConnection now ex sym tf d2 u2 s).1.connections
        (generateKey ex sym tf) = some (registerConnection now ex sym tf d2 u2 s).2 ∧
    (registerConnection now ex sym tf d2 u2 s).2.unsubscribe = c.unsubscribe ∧
    (∀ k', k' ≠ generateKey ex sym tf →
      lookupConn (registerConnection now ex sym tf d2 u2 s).1.connections k'
        = lookupConn s.connections k') ∧
    (registerConnection now ex sym tf d2 u2 s).1.invoked = s.invoked ∧
    (registerConnection now ex sym tf d2 u2 s).1.stored = s.stored := by
  have hr2 : (registerConnection now ex sym tf d2 u2 s).2
      = { c with subscriptionCount := c.subscriptionCount + 1, lastUpdated := now } := by
    unfold registerConnection; simp only [h]
  have hconn : (registerConnection now ex sym tf d2 u2 s).1.connections
      = setConn s.connections (generateKey ex sym tf)
          ({ c with subscriptionCount := c.subscriptionCount + 1, lastUpdated := now }) := by
    unfold registerConnection; simp only [h]
  have hinvk : (registerConnection now ex sym tf d2 u2 s).1.invoked = s.invoked := by
    unfold registerConnection; simp only [h]
  have hsto : (registerConnection now ex sym tf d2 u2 s).1.stored = s.stored := by
    unfold registerConnection; simp only [h]
  refine ⟨hr2, ?_, by rw [hr2], ?_, hinvk, hsto⟩
  · rw [hconn, hr2]
    exact lookupConn_setConn_self s.connections (generateKey ex sym tf) _
  · intro k' hk'
    rw [hconn]
    exact lookupConn_setConn_ne s.connections hk' _

/-- Witness for C7 at a concrete registry holding one record. -/
theorem registerConnection_existing_witness :
    lookupConn (registerConnection 0 "binance" "BTCUSDT" "1m" [] 7 initState).1.connections
        (generateKey "binance" "BTCUSDT" "1m")
      = some (⟨"BTCUSDT", "binance", "1m", [], 0, true, 7, 1⟩ : ChartConnection) ∧
    ((registerConnection 50 "binance" "BTCUSDT" "1m" [] 9
        (registerConnection 0 "binance" "BTCUSDT" "1m" [] 7 initState).1).2
        = { (⟨"BTCUSDT", "binance", "1m", [], 0, true, 7, 1⟩ : ChartConnection) with
              subscriptionCount := (1 : Int) + 1, lastUpdated := 50 } ∧
      lookupConn (registerConnection 50 "binance" "BTCUSDT" "1m" [] 9
          (registerConnection 0 "binance" "BTCUSDT" "1m" [] 7 initState).1).1.connections
          (generateKey "binance" "BTCUSDT" "1m")
        = some (registerConnection 50 "binance" "BTCUSDT" "1m" [] 9
            (registerConnection 0 "binance" "BTCUSDT" "1m" [] 7 initState).1).2 ∧
      (registerConnection 50 "binance" "BTCUSDT" "1m" [] 9
          (registerConnection 0 "binance" "BTCUSDT" "1m" [] 7 initState).1).2.unsubscribe
        = (⟨"BTCUSDT", "binance", "1m", [], 0, true, 7, 1⟩ : ChartConnection).unsubscribe ∧
      (∀ k', k' ≠ generateKey "binance" "BTCUSDT" "1m" →
        lookupConn (registerConnection 50 "binance" "BTCUSDT" "1m" [] 9
            (registerConnection 0 "binance" "BTCUSDT" "1m" [] 7 initState).1).1.connections k'
          = lookupConn (registerConnection 0 "binance" "BTCUSDT" "1m" [] 7
              initState).1.connections k') ∧
      (registerConnection 50 "binance" "BTCUSDT" "1m" [] 9
          (registerConnection 0 "binance" "BTCUSDT" "1m" [] 7 initState).1).1.invoked
        = (registerConnection 0 "binance" "BTCUSDT" "1m" [] 7 initState).1.invoked ∧
      (registerConnection 50 "binance" "BTCUSDT" "1m" [] 9
          (registerConnection 0 "binance" "BTCUSDT" "1m" [] 7 initState).1).1.stored
        = (registerConnection 0 "binance" "BTCUSDT" "1m" [] 7 initState).1.stored) :=
  ⟨by decide, registerConnection_existing 50 "binance" "BTCUSDT" "1m" [] 9
      (⟨"BTCUSDT", "binance", "1m", [], 0, true, 7, 1⟩ : ChartConnection)
      (registerConnection 0 "binance" "BTCUSDT" "1m" [] 7 initState).1 (by decide)⟩

/-- C10: `registerConnection` on an existing record leaves `isActive`
and `lastData` untouched; hence for a record deactivated to count 0
(inactive) and then re-registered, `isConnectionActive` is still false
although `getSubscriptionCount` is 1. -/
theorem register_after_deactivate_still_inactive (now : Nat) (ex sym tf : String)
    (d2 : List Candle) (u2 : Nat) (c : ChartConnection) (s : ManagerState)
    (h : lookupConn s.connections (generateKey ex sym tf) = some c)
    (hcount : c.subscriptionCount = 0) (hact : c.isActive = false) :
    (registerConnection now ex sym tf d2 u2 s).2.isActive = c.isActive ∧
    (registerConnection now ex sym tf d2 u2 s).2.lastData = c.lastData ∧
    isConnectionActive ex sym tf (registerConnection now ex sym tf d2 u2 s).1 = false ∧
    getSubscriptionCount ex sym tf (registerConnection now ex sym tf d2 u2 s).1 = 1 := by
  have hr2 : (registerConnection now ex sym tf d2 u2 s).2
      = { c with subscriptionCount := c.subscriptionCount + 1, lastUpdated := now } := by
    unfold registerConnection; simp only [h]
  have hconn : (registerConnection now ex sym tf d2 u2 s).1.connections
      = setConn s.connections (generateKey ex sym tf)
          ({ c with subscriptionCount := c.subscriptionCount + 1, lastUpdated := now }) := by
    unfold registerConnection; simp only [h]
  refine ⟨by rw [hr2], by rw [hr2], ?_, ?_⟩
  · unfold isConnectionActive
    rw [hconn, lookupConn_setConn_self]
    simp [hact]
  · unfold getSubscriptionCount
    rw [hconn, lookupConn_setConn_self]
    simp [hcount]

/-- Witness for C10: register, deactivate to zero, register again. -/
theorem register_after_deactivate_still_inactive_witness :
    lookupConn (deactivateConnection "binance" "BTCUSDT" "1m"
        (registerConnection 0 "binance" "BTCUSDT" "1m" [] 7 initState).1).connections
        (generateKey "binance" "BTCUSDT" "1m")
      = some (⟨"BTCUSDT", "binance", "1m", [], 0, false, 7, 0⟩ : ChartConnection) ∧
    ((registerConnection 100 "binance" "BTCUSDT" "1m" [] 9
        (deactivateConnection "binance" "BTCUSDT" "1m"
          (registerConnection 0 "binance" "BTCUSDT" "1m" [] 7 initState).1)).2.isActive
        = (⟨"BTCUSDT", "binance", "1m", [], 0, false, 7, 0⟩ : ChartConnection).isActive ∧
      (registerConnection 100 "binance" "BTCUSDT" "1m" [] 9
        (deactivateConnection "binance" "BTCUSDT" "1m"
          (registerConnection 0 "binance" "BTCUSDT" "1m" [] 7 initState).1)).2.lastData
        = (⟨"BTCUSDT", "binance", "1m", [], 0, false, 7, 0⟩ : ChartConnection).lastData ∧
      isConnectionActive "binance" "BTCUSDT" "1m"
        (registerConnection 100 "binance" "BTCUSDT" "1m" [] 9
          (deactivateConnection "binance" "BTCUSDT" "1m"
            (registerConnection 0 "binance" "BTCUSDT" "1m" [] 7 initState).1)).1 = false ∧
      getSubscriptionCount "binance" "BTCUSDT" "1m"
        (registerConnection 100 "binance" "BTCUSDT" "1m" [] 9
          (deactivateConnection "binance" "BTCUSDT" "1m"
            (registerConnection 0 "binance" "BTCUSDT" "1m" [] 7 initState).1)).1 = 1) :=
  ⟨by decide, register_after_deactivate_still_inactive 100 "binance" "BTCUSDT" "1m" [] 9
      (⟨"BTCUSDT", "binance", "1m", [], 0, false, 7, 0⟩ : ChartConnection)
      (deactivateConnection "binance" "BTCUSDT" "1m"
        (registerConnection 0 "binance" "BTCUSDT" "1m" [] 7 initState).1)
      (by decide) (by decide) (by decide)⟩

/-- C4 counterexample: `generateKey` does no case folding, so a record
registered under exchange "Binance" is invisible under "binance" — the
subscription count reads 0 for the lower-case spelling and 1 for the
original, refuting case-insensitive key equality. -/
theorem key_case_insensitive_counterexample :
    getSubscriptionCount "binance" "BTCUSDT" "1m"
        (registerConnection 0 "Binance" "BTCUSDT" "1m" [] 7 initState).1 = 0 ∧
    getSubscriptionCount "Binance" "BTCUSDT" "1m"
        (registerConnection 0 "Binance" "BTCUSDT" "1m" [] 7 initState).1 = 1 := by
  constructor <;> decide

/-- C4 amended: key identity is exact, case-sensitive equality of the
generated `"exchange-symbol-timeframe"` string: after registering a
record from the empty registry, a query observes it (count 1) exactly
when the queried components generate the same key string, and observes
nothing (count 0) otherwise. -/
theorem key_equality_by_generateKey (e1 s1 t1 e2 s2 t2 : String)
    (d : List Candle) (u : Nat) (now : Nat) :
    getSubscriptionCount e2 s2 t2 (registerConnection now e1 s1 t1 d u initState).1
      = if generateKey e2 s2 t2 = generateKey e1 s1 t1 then 1 else 0 := by
  have hconn : (registerConnection now e1 s1 t1 d u initState).1.connections
      = [(generateKey e1 s1 t1, ⟨s1, e1, t1, d, now, true, u, 1⟩)] := by
    unfold registerConnection
    simp [initState, lookupConn, setConn]
  unfold getSubscriptionCount
  rw [hconn]
  by_cases hk : generateKey e1 s1 t1 = generateKey e2 s2 t2
  · simp [lookupConn, hk]
  · simp only [lookupConn, if_neg hk]
    rw [if_neg (fun he => hk he.symm)]

/-- Closed form of `d` successive `deactivateConnection` calls on a key
with a record: the count drops by `d`; `isActive` is cleared as soon as
some intermediate count reaches `<= 0` (equivalently, the final count is
`<= 0` and at least one call was made), and the logs are untouched. -/
theorem iterateDeactivate_spec (ex sym tf : String) :
    ∀ (d : Nat) (s : ManagerState) (c : ChartConnection),
      lookupConn s.connections (generateKey ex sym tf) = some c →
      lookupConn (iterateDeactivate ex sym tf d s).connections (generateKey ex sym tf)
          = some { c with
              subscriptionCount := c.subscriptionCount - (d : Int),
              isActive := if 1 ≤ d ∧ c.subscriptionCount - (d : Int) ≤ 0 then false
                          else c.isActive } ∧
      (iterateDeactivate ex sym tf d s).invoked = s.invoked ∧
      (iterateDeactivate ex sym tf d s).stored = s.stored := by
  intro d
  induction d with
  | zero =>
      intro s c h
      refine ⟨?_, rfl, rfl⟩
      simp only [iterateDeactivate, h, Option.some_inj]
      have hno : ¬(1 ≤ 0 ∧ c.subscriptionCount - ((0 : Nat) : Int) ≤ 0) := by omega
      rw [if_neg hno]
      cases c
      simp
  | succ d ih =>
      intro s c h
      have hstep : iterateDeactivate ex sym tf (d + 1) s
          = iterateDeactivate ex sym tf d (deactivateConnection ex sym tf s) := rfl
      have hconn1 : (deactivateConnection ex sym tf s).connections
          = setConn s.connections (generateKey ex sym tf)
              { c with
                subscriptionCount := c.subscriptionCount - 1,
                isActive := if c.subscriptionCount - 1 ≤ 0 then false else c.isActive } := by
        unfold deactivateConnection
        simp only [h]
      have hinv1 : (deactivateConnection ex sym tf s).invoked = s.invoked := by
        unfold deactivateConnection
        simp only [h]
      have hsto1 : (deactivateConnection ex sym tf s).stored = s.stored := by
        unfold deactivateConnection
        simp only [h]
      have hl1 : lookupConn (deactivateConnection ex sym tf s).connections
          (generateKey ex sym tf)
          = some { c with
              subscriptionCount := c.subscriptionCount - 1,
              isActive := if c.subscriptionCount - 1 ≤ 0 then false else c.isActive } := by
        rw [hconn1]
        exact lookupConn_setConn_self _ _ _
      obtain ⟨hl2, hi2, hs2⟩ := ih (deactivateConnection ex sym tf s) _ hl1
      rw [hstep]
      refine ⟨?_, by rw [hi2, hinv1], by rw [hs2, hsto1]⟩
      rw [hl2]
      congr 1
      obtain ⟨csym, cex, ctf, cdat, cupd, cact, cuns, ccount⟩ := c
      simp only [ChartConnection.mk.injEq, true_and]
      constructor
      · by_cases hA : (ccount - 1 : Int) ≤ 0
        · have hC : 1 ≤ d + 1 ∧ ccount - ((d + 1 : Nat) : Int) ≤ 0 := by
            constructor
            · omega
            · push_cast
              omega
          rw [if_pos hC]
          by_cases hB : 1 ≤ d ∧ (ccount - 1 : Int) - (d : Int) ≤ 0
          · rw [if_pos hB]
          · rw [if_neg hB, if_pos hA]
        · by_cases hB : 1 ≤ d ∧ (ccount - 1 : Int) - (d : Int) ≤ 0
          · have hC : 1 ≤ d + 1 ∧ ccount - ((d + 1 : Nat) : Int) ≤ 0 := by
              obtain ⟨hB1, hB2⟩ := hB
              constructor
              · omega
              · push_cast
                omega
            rw [if_pos hB, if_pos hC]
          · have hC : ¬(1 ≤ d + 1 ∧ ccount - ((d + 1 : Nat) : Int) ≤ 0) := by
              push_cast
              push_cast at hB
              omega
            rw [if_neg hB, if_neg hC, if_neg hA]
      · push_cast
        ring

/-- C3 counterexample: after one registration, two `deactivateConnection`
calls drive `subscriptionCount` to -1, and `getSubscriptionCount`
reports the negative value (JS `|| 0` only masks an exact 0). -/
theorem negative_count_counterexample :
    getSubscriptionCount "binance" "BTCUSDT" "1m"
        (iterateDeactivate "binance" "BTCUSDT" "1m" 2
          (registerConnection 0 "binance" "BTCUSDT" "1m" [] 7 initState).1) = -1 := by
  decide

/-- C3 amended: `deactivateConnection` decrements without a floor, so
after one registration and `d` deactivations the observable count is
exactly `1 - d` — non-negative only while deactivations do not outnumber
the activations, and negative (e.g. -1) as soon as they do. -/
theorem subscription_count_formula (ex sym tf : String) (d0 : List Candle)
    (u0 now0 : Nat) (d : Nat) :
    getSubscriptionCount ex sym tf
        (iterateDeactivate ex sym tf d
          (registerConnection now0 ex sym tf d0 u0 initState).1)
      = 1 - (d : Int) := by
  have h1 : lookupConn (registerConnection now0 ex sym tf d0 u0 initState).1.connections
      (generateKey ex sym tf) = some ⟨sym, ex, tf, d0, now0, true, u0, 1⟩ := by
    unfold registerConnection
    simp [initState, lookupConn, setConn]
  obtain ⟨hl, _, _⟩ := iterateDeactivate_spec ex sym tf d _ _ h1
  unfold getSubscriptionCount
  rw [hl]

/-- Effect of a block of consumer calls (`activateConnection` or a
repeated `registerConnection`) on a key holding an active record: each
call adds one reference, the record stays active with its original
capability and data, and the logs are untouched. -/
theorem applyCalls_spec (ex sym tf : String) :
    ∀ (cs : List ConsumeCall) (s : ManagerState) (c : ChartConnection),
      lookupConn s.connections (generateKey ex sym tf) = some c →
      c.isActive = true →
      ∃ c', lookupConn (applyCalls ex sym tf cs s).connections (generateKey ex sym tf)
            = some c' ∧
        c'.subscriptionCount = c.subscriptionCount + (cs.length : Int) ∧
        c'.isActive = true ∧
        c'.unsubscribe = c.unsubscribe ∧
        c'.lastData = c.lastData ∧
        (applyCalls ex sym tf cs s).invoked = s.invoked ∧
        (applyCalls ex sym tf cs s).stored = s.stored := by
  intro cs
  induction cs with
  | nil =>
      intro s c h hact
      exact ⟨c, h, by simp, hact, rfl, rfl, rfl, rfl⟩
  | cons call rest ih =>
      intro s c h hact
      cases call with
      | activateCall now =>
          have hconn1 : (activateConnection now ex sym tf s).connections
              = setConn s.connections (generateKey ex sym tf)
                  { c with
                    subscriptionCount := c.subscriptionCount + 1,
                    isActive := true, lastUpdated := now } := by
            unfold activateConnection
            simp only [h]
          have hinv1 : (activateConnection now ex sym tf s).invoked = s.invoked := by
            unfold activateConnection
            simp only [h]
          have hsto1 : (activateConnection now ex sym tf s).stored = s.stored := by
            unfold activateConnection
            simp only [h]
          have hl1 : lookupConn (activateConnection now ex sym tf s).connections
              (generateKey ex sym tf)
              = some { c with
                  subscriptionCount := c.subscriptionCount + 1,
                  isActive := true, lastUpdated := now } := by
            rw [hconn1]
            exact lookupConn_setConn_self _ _ _
          obtain ⟨c', hc', hcount, hact', huns, hdat, hinv, hsto⟩ :=
            ih (activateConnection now ex sym tf s) _ hl1 rfl
          simp only [applyCalls]
          refine ⟨c', hc', ?_, hact', huns, hdat, by rw [hinv, hinv1], by rw [hsto, hsto1]⟩
          rw [hcount]
          show c.subscriptionCount + 1 + (rest.length : Int)
              = c.subscriptionCount + ((rest.length + 1 : Nat) : Int)
          push_cast
          ring
      | registerCall now d2 u2 =>
          have hconn1 : ((registerConnection now ex sym tf d2 u2 s).1).connections
              = setConn s.connections (generateKey ex sym tf)
                  { c with
                    subscriptionCount := c.subscriptionCount + 1,
                    lastUpdated := now } := by
            unfold registerConnection
            simp only [h]
          have hinv1 : ((registerConnection now ex sym tf d2 u2 s).1).invoked = s.invoked := by
            unfold registerConnection
            simp only [h]
          have hsto1 : ((registerConnection now ex sym tf d2 u2 s).1).stored = s.stored := by
            unfold registerConnection
            simp only [h]
          have hl1 : lookupConn ((registerConnection now ex sym tf d2 u2 s).1).connections
              (generateKey ex sym tf)
              = some { c with
                  subscriptionCount := c.subscriptionCount + 1,
                  lastUpdated := now } := by
            rw [hconn1]
            exact lookupConn_setConn_self _ _ _
          obtain ⟨c', hc', hcount, hact', huns, hdat, hinv, hsto⟩ :=
            ih ((registerConnection now ex sym tf d2 u2 s).1) _ hl1 hact
          simp only [applyCalls]
          refine ⟨c', hc', ?_, hact', huns, hdat, by rw [hinv, hinv1], by rw [hsto, hsto1]⟩
          rw [hcount]
          show c.subscriptionCount + 1 + (rest.length : Int)
              = c.subscriptionCount + ((rest.length + 1 : Nat) : Int)
          push_cast
          ring

/-- C5: a first `registerConnection` followed by any block of further
activate/register calls (N calls in total) then N `deactivateConnection`
calls leaves the record present with `subscriptionCount = 0`,
`isActive = false` and its original capability, with nothing invoked;
and `deactivateConnection` on a key with no record changes nothing. -/
theorem deactivation_hysteresis (ex sym tf : String) (now0 : Nat)
    (d0 : List Candle) (u0 : Nat) (cs : List ConsumeCall) (s0 : ManagerState)
    (h0 : lookupConn s0.connections (generateKey ex sym tf) = none) :
    (∃ c, lookupConn (iterateDeactivate ex sym tf (cs.length + 1)
            (applyCalls ex sym tf cs
              (registerConnection now0 ex sym tf d0 u0 s0).1)).connections
          (generateKey ex sym tf) = some c ∧
        c.subscriptionCount = 0 ∧ c.isActive = false ∧ c.unsubscribe = u0) ∧
    (iterateDeactivate ex sym tf (cs.length + 1)
        (applyCalls ex sym tf cs
          (registerConnection now0 ex sym tf d0 u0 s0).1)).invoked = s0.invoked ∧
    deactivateConnection ex sym tf s0 = s0 := by
  have hconn1 : (registerConnection now0 ex sym tf d0 u0 s0).1.connections
      = setConn s0.connections (generateKey ex sym tf)
          ⟨sym, ex, tf, d0, now0, true, u0, 1⟩ := by
    unfold registerConnection
    simp only [h0]
  have hinv1 : (registerConnection now0 ex sym tf d0 u0 s0).1.invoked = s0.invoked := by
    unfold registerConnection
    simp only [h0]
  have hl1 : lookupConn (registerConnection now0 ex sym tf d0 u0 s0).1.connections
      (generateKey ex sym tf) = some ⟨sym, ex, tf, d0, now0, true, u0, 1⟩ := by
    rw [hconn1]
    exact lookupConn_setConn_self _ _ _
  obtain ⟨c', hc', hcount, hact', huns, hdat, hinv2, hsto2⟩ :=
    applyCalls_spec ex sym tf cs _ _ hl1 rfl
  obtain ⟨hl3, hinv3, hsto3⟩ := iterateDeactivate_spec ex sym tf (cs.length + 1) _ _ hc'
  have hc1 : c'.subscriptionCount = 1 + (cs.length : Int) := by
    rw [hcount]
  have hzero : c'.subscriptionCount - ((cs.length + 1 : Nat) : Int) = 0 := by
    rw [hc1]
    push_cast
    ring
  refine ⟨⟨_, hl3, ?_, ?_, ?_⟩, by rw [hinv3, hinv2, hinv1], ?_⟩
  · exact hzero
  · show (if 1 ≤ cs.length + 1 ∧ c'.subscriptionCount - ((cs.length + 1 : Nat) : Int) ≤ 0
        then false else c'.isActive) = false
    rw [if_pos ⟨by omega, hzero.le⟩]
  · exact huns
  · unfold deactivateConnection
    simp only [h0]

/-- Witness for C5: register, one activation, two deactivations. -/
theorem deactivation_hysteresis_witness :
    (∃ c, lookupConn (iterateDeactivate "binance" "BTCUSDT" "1m"
            ([ConsumeCall.activateCall 10].length + 1)
            (applyCalls "binance" "BTCUSDT" "1m" [ConsumeCall.activateCall 10]
              (registerConnection 0 "binance" "BTCUSDT" "1m" [] 7 initState).1)).connections
          (generateKey "binance" "BTCUSDT" "1m") = some c ∧
        c.subscriptionCount = 0 ∧ c.isActive = false ∧ c.unsubscribe = 7) ∧
    (iterateDeactivate "binance" "BTCUSDT" "1m"
        ([ConsumeCall.activateCall 10].length + 1)
        (applyCalls "binance" "BTCUSDT" "1m" [ConsumeCall.activateCall 10]
          (registerConnection 0 "binance" "BTCUSDT" "1m" [] 7 initState).1)).invoked
      = initState.invoked ∧
    deactivateConnection "binance" "BTCUSDT" "1m" initState = initState :=
  deactivation_hysteresis "binance" "BTCUSDT" "1m" 0 [] 7
    [ConsumeCall.activateCall 10] initState (by decide)

/-- C6: a firing sweep removes exactly the records with `isActive`
false, count `<= 0` and age beyond the delay, invoking exactly their
capabilities (in map order); and a record activated before the sweep
fires survives the sweep with its capability not invoked in that cycle. -/
theorem sweep_condition_and_reactivation
    (delay now delay2 now1 now2 : Nat) (ex sym tf : String)
    (c : ChartConnection) (s : ManagerState)
    (h : lookupConn s.connections (generateKey ex sym tf) = some c)
    (hu : c.unsubscribe ∉ s.invoked)
    (hids : (s.connections.map (fun p => p.2.unsubscribe)).Nodup) :
    (cleanupInactiveConnectionsFire delay now s).connections
        = s.connections.filter (fun p => !sweepCond delay now p.2) ∧
    (cleanupInactiveConnectionsFire delay now s).invoked
        = s.invoked ++ (s.connections.filter
            (fun p => sweepCond delay now p.2)).map (fun p => p.2.unsubscribe) ∧
    lookupConn (cleanupInactiveConnectionsFire delay2 now2
          (activateConnection now1 ex sym tf s)).connections (generateKey ex sym tf)
        = some { c with
            subscriptionCount := c.subscriptionCount + 1,
            isActive := true, lastUpdated := now1 } ∧
    c.unsubscribe ∉ (cleanupInactiveConnectionsFire delay2 now2
          (activateConnection now1 ex sym tf s)).invoked := by
  obtain ⟨l1, l2, hm, hl1s⟩ := lookupConn_decomp h
  have hconn1 : (activateConnection now1 ex sym tf s).connections
      = setConn s.connections (generateKey ex sym tf)
          { c with
            subscriptionCount := c.subscriptionCount + 1,
            isActive := true, lastUpdated := now1 } := by
    unfold activateConnection
    simp only [h]
  have hinv1 : (activateConnection now1 ex sym tf s).invoked = s.invoked := by
    unfold activateConnection
    simp only [h]
  have hset : setConn s.connections (generateKey ex sym tf)
      ({ c with
         subscriptionCount := c.subscriptionCount + 1,
         isActive := true, lastUpdated := now1 })
      = l1 ++ (generateKey ex sym tf,
          { c with
            subscriptionCount := c.subscriptionCount + 1,
            isActive := true, lastUpdated := now1 }) :: l2 := by
    rw [hm]
    exact setConn_append_cons l1 l2 _ c _ hl1s
  have hlook : lookupConn (activateConnection now1 ex sym tf s).connections
      (generateKey ex sym tf)
      = some { c with
          subscriptionCount := c.subscriptionCount + 1,
          isActive := true, lastUpdated := now1 } := by
    rw [hconn1]
    exact lookupConn_setConn_self _ _ _
  have hkeep : (fun p : String × ChartConnection => !sweepCond delay2 now2 p.2)
      ((generateKey ex sym tf),
        { c with
          subscriptionCount := c.subscriptionCount + 1,
          isActive := true, lastUpdated := now1 }) = true := by
    simp [sweepCond]
  rw [hm] at hids
  simp only [List.map_append, List.map_cons] at hids
  obtain ⟨hnd1, hnd2, hdisj⟩ := List.nodup_append.1 hids
  have hcnl1 : c.unsubscribe ∉ List.map (fun p => p.2.unsubscribe) l1 := fun hmem =>
    hdisj hmem (List.mem_cons_self _ _)
  have hcnl2 : c.unsubscribe ∉ List.map (fun p => p.2.unsubscribe) l2 :=
    (List.nodup_cons.1 hnd2).1
  refine ⟨?_, ?_, ?_, ?_⟩
  · simp only [cleanupInactiveConnectionsFire, sweepRun_eq]
  · simp only [cleanupInactiveConnectionsFire, sweepRun_eq]
  · simp only [cleanupInactiveConnectionsFire, sweepRun_eq]
    exact lookupConn_filter _ hlook hkeep
  · simp only [cleanupInactiveConnectionsFire, sweepRun_eq, hinv1]
    intro hmem
    rcases List.mem_append.1 hmem with h1 | h2
    · exact hu h1
    · obtain ⟨p, hpf, hpa⟩ := List.mem_map.1 h2
      obtain ⟨hpm, hpc⟩ := List.mem_filter.1 hpf
      rw [hconn1, hset] at hpm
      rcases List.mem_append.1 hpm with hq1 | hq2
      · exact hcnl1 (hpa ▸ List.mem_map_of_mem (fun p => p.2.unsubscribe) hq1)
      · rcases List.mem_cons.1 hq2 with rfl | hq3
        · simp [sweepCond] at hpc
        · exact hcnl2 (hpa ▸ List.mem_map_of_mem (fun p => p.2.unsubscribe) hq3)

/-- Witness for C6: a deactivated, aged record is reactivated at t=100
and then survives a sweep firing at t=5000 with delay 2000. -/
theorem sweep_condition_and_reactivation_witness :
    (cleanupInactiveConnectionsFire 2000 5000
        (deactivateConnection "binance" "BTCUSDT" "1m"
          (registerConnection 0 "binance" "BTCUSDT" "1m" [] 7 initState).1)).connections
      = (deactivateConnection "binance" "BTCUSDT" "1m"
          (registerConnection 0 "binance" "BTCUSDT" "1m" [] 7
            initState).1).connections.filter (fun p => !sweepCond 2000 5000 p.2) ∧
    (cleanupInactiveConnectionsFire 2000 5000
        (deactivateConnection "binance" "BTCUSDT" "1m"
          (registerConnection 0 "binance" "BTCUSDT" "1m" [] 7 initState).1)).invoked
      = (deactivateConnection "binance" "BTCUSDT" "1m"
          (registerConnection 0 "binance" "BTCUSDT" "1m" [] 7 initState).1).invoked
        ++ ((deactivateConnection "binance" "BTCUSDT" "1m"
            (registerConnection 0 "binance" "BTCUSDT" "1m" [] 7
              initState).1).connections.filter
            (fun p => sweepCond 2000 5000 p.2)).map (fun p => p.2.unsubscribe) ∧
    lookupConn (cleanupInactiveConnectionsFire 2000 5000
          (activateConnection 100 "binance" "BTCUSDT" "1m"
            (deactivateConnection "binance" "BTCUSDT" "1m"
              (registerConnection 0 "binance" "BTCUSDT" "1m" [] 7
                initState).1))).connections (generateKey "binance" "BTCUSDT" "1m")
      = some { (⟨"BTCUSDT", "binance", "1m", [], 0, false, 7, 0⟩ : ChartConnection) with
          subscriptionCount := (0 : Int) + 1,
          isActive := true, lastUpdated := 100 } ∧
    (⟨"BTCUSDT", "binance", "1m", [], 0, false, 7, 0⟩ : ChartConnection).unsubscribe
      ∉ (cleanupInactiveConnectionsFire 2000 5000
          (activateConnection 100 "binance" "BTCUSDT" "1m"
            (deactivateConnection "binance" "BTCUSDT" "1m"
              (registerConnection 0 "binance" "BTCUSDT" "1m" [] 7
                initState).1))).invoked :=
  sweep_condition_and_reactivation 2000 5000 2000 100 5000 "binance" "BTCUSDT" "1m"
    (⟨"BTCUSDT", "binance", "1m", [], 0, false, 7, 0⟩ : ChartConnection)
    (deactivateConnection "binance" "BTCUSDT" "1m"
      (registerConnection 0 "binance" "BTCUSDT" "1m" [] 7 initState).1)
    (by decide) (by decide) (by decide)

/-- C9: whenever `initializeChart` takes the fresh-fetch path (no fresh
cache, or connection not active) and the fetch capability rejects, the
error message is surfaced, `registerConnection` is not reached, and the
registry state — records and cached data alike — is exactly the input
state. -/
theorem fetch_failure_atomicity (now : Nat) (ex sym tf : String)
    (e : String) (u : Nat) (s : ManagerState)
    (hpath : getCachedData now ex sym tf s = none ∨
             isConnectionActive ex sym tf s = false) :
    initializeChart now ex sym tf (Except.error e) u s
      = { state := s, fetchInvoked := true, registered := false,
          isReusingConnection := false, dataSet := none, error := some e } := by
  unfold initializeChart initializeChartFresh
  cases hg : getCachedData now ex sym tf s with
  | none => rfl
  | some cd =>
      rcases hpath with hc | ha
      · rw [hg] at hc
        exact absurd hc (by simp)
      · rw [ha]
        rfl

/-- Witness for C9: failing fetch against the empty registry leaves it
empty and surfaces the error. -/
theorem fetch_failure_atomicity_witness :
    initializeChart 0 "binance" "BTCUSDT" "1m" (Except.error "network down") 7 initState
      = { state := initState, fetchInvoked := true, registered := false,
          isReusingConnection := false, dataSet := none, error := some "network down" } :=
  fetch_failure_atomicity 0 "binance" "BTCUSDT" "1m" "network down" 7 initState
    (Or.inl (by decide))

/-- C1 counterexample: mount at t=0 (fresh fetch, record active, count 1),
unmount (deactivate: count 0, inactive), remount at t=100 — well inside
the grace window, cache still fresh, no sweep fired.  The claim expects
the cached data to be adopted without a fetch and the record to end
active; the code instead finds `isConnectionActive` false, takes the
fresh-fetch path (the fetch capability IS invoked), and the re-registered
record ends with count 1 but `isActive` still false. -/
theorem remount_within_grace_counterexample :
    getCachedData 100 "binance" "BTCUSDT" "1m"
        (deactivateConnection "binance" "BTCUSDT" "1m"
          (initializeChart 0 "binance" "BTCUSDT" "1m" (Except.ok []) 7 initState).state)
      = some [] ∧
    (initializeChart 100 "binance" "BTCUSDT" "1m" (Except.ok []) 8
        (deactivateConnection "binance" "BTCUSDT" "1m"
          (initializeChart 0 "binance" "BTCUSDT" "1m"
            (Except.ok []) 7 initState).state)).fetchInvoked = true ∧
    getSubscriptionCount "binance" "BTCUSDT" "1m"
      (initializeChart 100 "binance" "BTCUSDT" "1m" (Except.ok []) 8
        (deactivateConnection "binance" "BTCUSDT" "1m"
          (initializeChart 0 "binance" "BTCUSDT" "1m"
            (Except.ok []) 7 initState).state)).state = 1 ∧
    isConnectionActive "binance" "BTCUSDT" "1m"
      (initializeChart 100 "binance" "BTCUSDT" "1m" (Except.ok []) 8
        (deactivateConnection "binance" "BTCUSDT" "1m"
          (initializeChart 0 "binance" "BTCUSDT" "1m"
            (Except.ok []) 7 initState).state)).state = false := by
  refine ⟨?_, ?_, ?_, ?_⟩ <;> decide

/-- C1 amended: re-running `initializeChart` for a key whose record was
deactivated to count 0 (hence inactive), while the cached data is still
fresh and no sweep has fired, does NOT adopt the cache: because
`isConnectionActive` is false the fresh path runs — the fetch capability
is invoked and `registerConnection` re-registers the existing record,
leaving `referenceCount = 1` but `isActive` still false (the record and
its original release capability are retained; the new one is discarded). -/
theorem remount_within_grace_takes_fresh_path (now : Nat) (ex sym tf : String)
    (d : List Candle) (u : Nat) (c : ChartConnection) (s : ManagerState)
    (h : lookupConn s.connections (generateKey ex sym tf) = some c)
    (hcount : c.subscriptionCount = 0) (hact : c.isActive = false)
    (hfr : (now : Int) - (c.lastUpdated : Int) < 30000) :
    (initializeChart now ex sym tf (Except.ok d) u s).fetchInvoked = true ∧
    (initializeChart now ex sym tf (Except.ok d) u s).registered = true ∧
    (initializeChart now ex sym tf (Except.ok d) u s).isReusingConnection = false ∧
    getSubscriptionCount ex sym tf
        (initializeChart now ex sym tf (Except.ok d) u s).state = 1 ∧
    isConnectionActive ex sym tf
        (initializeChart now ex sym tf (Except.ok d) u s).state = false ∧
    (∃ c', lookupConn (initializeChart now ex sym tf
          (Except.ok d) u s).state.connections (generateKey ex sym tf) = some c' ∧
        c'.unsubscribe = c.unsubscribe ∧ c'.lastData = c.lastData) := by
  have hcache : getCachedData now ex sym tf s = some c.lastData := by
    unfold getCachedData
    simp only [h, if_pos hfr]
  have hactive : isConnectionActive ex sym tf s = false := by
    unfold isConnectionActive
    simp only [h, hact]
    simp
  have hinit : initializeChart now ex sym tf (Except.ok d) u s
      = initializeChartFresh now ex sym tf (Except.ok d) u s := by
    unfold initializeChart
    rw [hcache, hactive]
    simp
  have hconn2 : (registerConnection now ex sym tf d u s).1.connections
      = setConn s.connections (generateKey ex sym tf)
          { c with subscriptionCount := c.subscriptionCount + 1, lastUpdated := now } := by
    unfold registerConnection
    simp only [h]
  have hl2 : lookupConn (registerConnection now ex sym tf d u s).1.connections
      (generateKey ex sym tf)
      = some { c with subscriptionCount := c.subscriptionCount + 1, lastUpdated := now } := by
    rw [hconn2]
    exact lookupConn_setConn_self _ _ _
  have hstate : (initializeChart now ex sym tf (Except.ok d) u s).state
      = (registerConnection now ex sym tf d u s).1 := by
    rw [hinit]
    rfl
  refine ⟨by rw [hinit]; rfl, by rw [hinit]; rfl, by rw [hinit]; rfl, ?_, ?_, ?_⟩
  · unfold getSubscriptionCount
    rw [hstate, hl2]
    simp [hcount]
  · unfold isConnectionActive
    rw [hstate, hl2]
    simp [hact]
  · exact ⟨{ c with subscriptionCount := c.subscriptionCount + 1, lastUpdated := now },
      by rw [hstate]; exact hl2, rfl, rfl⟩

/-- Witness for the amended C1 at the concrete remount trace. -/
theorem remount_within_grace_takes_fresh_path_witness :
    (initializeChart 100 "binance" "BTCUSDT" "1m" (Except.ok []) 8
        (deactivateConnection "binance" "BTCUSDT" "1m"
          (registerConnection 0 "binance" "BTCUSDT" "1m" [] 7
            initState).1)).fetchInvoked = true ∧
    (initializeChart 100 "binance" "BTCUSDT" "1m" (Except.ok []) 8
        (deactivateConnection "binance" "BTCUSDT" "1m"
          (registerConnection 0 "binance" "BTCUSDT" "1m" [] 7
            initState).1)).registered = true ∧
    (initializeChart 100 "binance" "BTCUSDT" "1m" (Except.ok []) 8
        (deactivateConnection "binance" "BTCUSDT" "1m"
          (registerConnection 0 "binance" "BTCUSDT" "1m" [] 7
            initState).1)).isReusingConnection = false ∧
    getSubscriptionCount "binance" "BTCUSDT" "1m"
        (initializeChart 100 "binance" "BTCUSDT" "1m" (Except.ok []) 8
          (deactivateConnection "binance" "BTCUSDT" "1m"
            (registerConnection 0 "binance" "BTCUSDT" "1m" [] 7
              initState).1)).state = 1 ∧
    isConnectionActive "binance" "BTCUSDT" "1m"
        (initializeChart 100 "binance" "BTCUSDT" "1m" (Except.ok []) 8
          (deactivateConnection "binance" "BTCUSDT" "1m"
            (registerConnection 0 "binance" "BTCUSDT" "1m" [] 7
              initState).1)).state = false ∧
    (∃ c', lookupConn (initializeChart 100 "binance" "BTCUSDT" "1m"
          (Except.ok []) 8
          (deactivateConnection "binance" "BTCUSDT" "1m"
            (registerConnection 0 "binance" "BTCUSDT" "1m" [] 7
              initState).1)).state.connections
          (generateKey "binance" "BTCUSDT" "1m") = some c' ∧
        c'.unsubscribe
          = (⟨"BTCUSDT", "binance", "1m", [], 0, false, 7, 0⟩ : ChartConnection).unsubscribe ∧
        c'.lastData
          = (⟨"BTCUSDT", "binance", "1m", [], 0, false, 7, 0⟩ : ChartConnection).lastData) :=
  remount_within_grace_takes_fresh_path 100 "binance" "BTCUSDT" "1m" [] 8
    (⟨"BTCUSDT", "binance", "1m", [], 0, false, 7, 0⟩ : ChartConnection)
    (deactivateConnection "binance" "BTCUSDT" "1m"
      (registerConnection 0 "binance" "BTCUSDT" "1m" [] 7 initState).1)
    (by decide) (by decide) (by decide) (by decide)
